import Mathlib

/-
Shallow embedding of the go-coap DTLS session supervisor (dtls/session.go).

The session owns one transport connection, runs a read/process loop, keeps a
registry of close hooks, an atomically swappable cancellable context, and an
idle timer.  Observable behaviour is modelled as a trace of events; external
collaborators (the transport connection and the message processor) are
modelled by their outcomes, passed in as data.
-/

/-- Go error values.  A marshal failure inside WriteMessage is wrapped by
fmt.Errorf, modelled by the wrapMarshal constructor. -/
inductive GErr where
  | errCode (n : Nat)
  | wrapMarshal (e : GErr)
  deriving DecidableEq, Repr

/-- A Go context: a chain of cancellation tokens (context.WithCancel adds one;
the context is done as soon as any token in the chain is cancelled) together
with a key/value side table (context.WithValue pushes a pair; the most recent
binding of a key wins). -/
structure GoCtx where
  tokens : List Nat
  values : List (Nat × Nat)
  deriving DecidableEq, Repr

/-- Models context.WithCancel: the child carries a fresh token and inherits
every ancestor token, so ancestor cancellation still propagates. -/
def GoCtx.withCancel (c : GoCtx) (tok : Nat) : GoCtx :=
  ⟨tok :: c.tokens, c.values⟩

/-- Models context.WithValue: wraps the context with one more key/value pair,
leaving the cancellation chain untouched. -/
def GoCtx.withValue (c : GoCtx) (k v : Nat) : GoCtx :=
  ⟨c.tokens, (k, v) :: c.values⟩

/-- Models ctx.Value(k): the most recently added binding of k, if any. -/
def GoCtx.lookup (c : GoCtx) (k : Nat) : Option Nat :=
  (c.values.find? (fun p => p.1 == k)).map (fun p => p.2)

/-- Whether the context is done, given the set of cancelled tokens. -/
def GoCtx.done (cancelled : List Nat) (c : GoCtx) : Bool :=
  c.tokens.any (fun t => cancelled.contains t)

/-- Observable events of a session execution: reads from the transport,
idle-timer operations, processor invocations, context cancellation, close-hook
invocations, transport close, and transport writes. -/
inductive Event where
  | readEv (i : Nat)
  | timerArmEv (secs : Nat)
  | timerResetEv
  | timerStopEv
  | processEv (i : Nat) (len : Nat)
  | cancelEv (tok : Nat)
  | hookEv (h : Nat)
  | connCloseEv
  | writeEv (c : GoCtx) (data : List Nat)
  deriving DecidableEq, Repr

/-- The Session struct of dtls/session.go.  Hooks are identified by Nat ids;
cancel is the token that s.cancel cancels; ctx is the current atomic context
snapshot. -/
structure Session where
  maxMessageSize : Nat
  closeSocket : Bool
  onClose : List Nat
  cancel : Nat
  ctx : GoCtx
  deriving DecidableEq, Repr

/-- NewSession: derives a cancellable context from the parent (tok is the
fresh cancellation token paired with s.cancel) and stores it. -/
def NewSession (parent : GoCtx) (maxMessageSize : Nat) (closeSocket : Bool)
    (tok : Nat) : Session :=
  ⟨maxMessageSize, closeSocket, [], tok, parent.withCancel tok⟩

/-- Done(): whether the channel returned by s.Context().Done() is closed,
given the set of cancelled tokens. -/
def Session.Done (cancelled : List Nat) (s : Session) : Bool :=
  GoCtx.done cancelled s.ctx

/-- AddOnClose: appends a hook to the registry (under the mutex). -/
def Session.AddOnClose (s : Session) (f : Nat) : Session :=
  { s with onClose := s.onClose ++ [f] }

/-- popOnClose: takes the whole registry and clears it (under the mutex). -/
def Session.popOnClose (s : Session) : List Nat × Session :=
  (s.onClose, { s with onClose := [] })

/-- close (lowercase, the teardown body): runs every popped hook in order,
then closes the transport iff closeSocket, returning the transport close
result in that case.  connCloseErr is what connection.Close() returns. -/
def Session.close (s : Session) (connCloseErr : Option GErr) :
    Option GErr × List Event × Session :=
  let popped := s.popOnClose
  let hookEvs := popped.1.map Event.hookEv
  if s.closeSocket then (connCloseErr, hookEvs ++ [Event.connCloseEv], popped.2)
  else (none, hookEvs, popped.2)

/-- Close (exported): cancels the session context and returns nil. -/
def Session.Close (s : Session) : Option GErr × List Event :=
  (none, [Event.cancelEv s.cancel])

/-- SetContextValue: swaps in a context wrapping the previous snapshot with
one more key/value pair. -/
def Session.SetContextValue (s : Session) (k v : Nat) : Session :=
  { s with ctx := s.ctx.withValue k v }

/-- A pool.Message as WriteMessage sees it: its Marshal outcome and its own
context (used as the write bound). -/
structure PMessage where
  Marshal : Except GErr (List Nat)
  Context : GoCtx
  deriving Repr

/-- WriteMessage: marshal the message; on failure return the wrapped marshal
error without touching the transport; on success perform exactly one write
bounded by the message's own context.  writeResult is what
connection.WriteWithContext returns. -/
def Session.WriteMessage (s : Session) (writeResult : Option GErr)
    (req : PMessage) : Option GErr × List Event :=
  match req.Marshal with
  | Except.error e => (some (GErr.wrapMarshal e), [])
  | Except.ok data => (writeResult, [Event.writeEv req.Context data])

/-- MaxMessageSize accessor. -/
def Session.MaxMessageSize : Session → Nat :=
  fun s => s.maxMessageSize

/-- How the read/process loop terminates: either a read returns an error, or
a read succeeds (with readLen bytes) and the processor rejects it.  The Go
loop exits only through one of these. -/
inductive TermCause where
  | readError (e : GErr)
  | processError (readLen : Nat) (e : GErr)
  deriving DecidableEq, Repr

/-- The error carried by the terminating cause. -/
def TermCause.err : TermCause → GErr
  | TermCause.readError e => e
  | TermCause.processError _ e => e

/-- Input to one execution of Run: the lengths of the reads whose iteration
completed fully (read ok, process ok), followed by the terminating cause. -/
structure RunInput where
  okReads : List Nat
  terminal : TermCause
  deriving DecidableEq, Repr

/-- The for-loop body of Run, iteration by iteration.  Mirrors the source
order: the read happens, then timer.Reset is called unconditionally, then the
error check, then Process.  Returns the loop's error and its events. -/
def runLoop (i : Nat) (okReads : List Nat) (terminal : TermCause) :
    GErr × List Event :=
  match okReads with
  | [] =>
    match terminal with
    | TermCause.readError e =>
      (e, [Event.readEv i, Event.timerResetEv])
    | TermCause.processError n e =>
      (e, [Event.readEv i, Event.timerResetEv, Event.processEv i n])
  | n :: rest =>
    let r := runLoop (i + 1) rest terminal
    (r.1, Event.readEv i :: Event.timerResetEv :: Event.processEv i n :: r.2)

/-- Models the Go pattern where err1 replaces err only when err was nil, so
the first non-nil error wins. -/
def firstNonNil (e e1 : Option GErr) : Option GErr :=
  match e with
  | none => e1
  | some x => some x

/-- Run: arms the idle timer (300 seconds), runs the loop, then the deferred
calls fire in LIFO order: timer.Stop, then the cleanup closure, which calls
s.Close() (keeping its error if the loop error was nil) and then s.close()
(keeping its error if still nil).  Returns the surfaced error, the event
trace, and the final session. -/
def Session.Run (s : Session) (inp : RunInput) (connCloseErr : Option GErr) :
    Option GErr × List Event × Session :=
  let loopRes := runLoop 0 inp.okReads inp.terminal
  let closeRes := s.Close
  let err1 := firstNonNil (some loopRes.1) closeRes.1
  let closeRes2 := s.close connCloseErr
  let err2 := firstNonNil err1 closeRes2.1
  (err2,
    Event.timerArmEv 300 :: loopRes.2 ++ Event.timerStopEv :: closeRes.2 ++ closeRes2.2.1,
    closeRes2.2.2)

/-- The channels a blocked goroutine can be woken by. -/
inductive WaitChan where
  | timerC
  | ctxDone
  deriving DecidableEq, Repr

/-- The select statement of the timer goroutine has exactly one case,
timer.C; the session's Done channel is not among its cases. -/
def timerSelectCases : List WaitChan :=
  [WaitChan.timerC]

/-- The timer goroutine of Run, driven by the sequence of channel signals
that occur: the select waits only on timer.C, so a ctxDone signal does not
wake it; on timer.C it stops the timer, calls s.Close() and returns.  Result:
whether the goroutine ever returns, and the events it emits. -/
def timerGoroutine (tok : Nat) : List WaitChan → Bool × List Event
  | [] => (false, [])
  | WaitChan.timerC :: _ => (true, [Event.timerStopEv, Event.cancelEv tok])
  | WaitChan.ctxDone :: rest => timerGoroutine tok rest

/-- External API calls made over a session lifetime. -/
inductive ApiCall where
  | addHook (h : Nat)
  | runCall (inp : RunInput) (connCloseErr : Option GErr)
  deriving DecidableEq, Repr

/-- Execute one API call against the session, yielding the new session and
the events the call emits. -/
def execCall (s : Session) (c : ApiCall) : Session × List Event :=
  match c with
  | ApiCall.addHook h => (s.AddOnClose h, [])
  | ApiCall.runCall inp e =>
    let r := s.Run inp e
    (r.2.2, r.2.1)

/-- Execute a sequence of API calls, concatenating their event traces. -/
def execCalls (s : Session) : List ApiCall → Session × List Event
  | [] => (s, [])
  | c :: cs =>
    let r := execCall s c
    let r2 := execCalls r.1 cs
    (r2.1, r.2 ++ r2.2)

/-- Register a list of hooks in order via AddOnClose. -/
def registerAll (s : Session) (hs : List Nat) : Session :=
  hs.foldl Session.AddOnClose s

/-- Whether an event is a close-hook invocation. -/
def isHookEv : Event → Bool
  | Event.hookEv _ => true
  | _ => false

/-- Whether an event is one emitted inside the read/process loop body. -/
def isLoopEvent : Event → Bool
  | Event.readEv _ => true
  | Event.timerResetEv => true
  | Event.processEv _ _ => true
  | _ => false

/-- The number of successful reads in a run: every fully completed iteration
read successfully, and a processError terminal also read successfully first. -/
def successfulReads (inp : RunInput) : Nat :=
  inp.okReads.length +
    (match inp.terminal with
     | TermCause.readError _ => 0
     | TermCause.processError _ _ => 1)

/-- An empty root context. -/
def ctx0 : GoCtx :=
  ⟨[], []⟩

/-- A concrete session used by the witnesses: fresh token 1, closeSocket
true, maxMessageSize 64. -/
def sEx : Session :=
  NewSession ctx0 64 true 1

/-- A concrete run input: the very first read fails. -/
def inpEx : RunInput :=
  ⟨[], TermCause.readError (GErr.errCode 3)⟩

/-- A concrete message whose Marshal fails. -/
def msgFail : PMessage :=
  ⟨Except.error (GErr.errCode 5), ctx0⟩

/-- A concrete message whose Marshal yields two bytes. -/
def msgOk : PMessage :=
  ⟨Except.ok [1, 2], ctx0⟩

/-- Every event emitted by the read/process loop is a loop event (a read, a
timer reset, or a processor invocation); the loop emits no cleanup event. -/
theorem runLoop_events_loop (i : Nat) (oks : List Nat) (t : TermCause) :
    ∀ ev ∈ (runLoop i oks t).2, isLoopEvent ev = true := by
  induction oks generalizing i with
  | nil =>
    cases t with
    | readError e =>
      intro ev hev
      simp only [runLoop, List.mem_cons, List.not_mem_nil, or_false] at hev
      rcases hev with h | h <;> subst h <;> rfl
    | processError n e =>
      intro ev hev
      simp only [runLoop, List.mem_cons, List.not_mem_nil, or_false] at hev
      rcases hev with h | h | h <;> subst h <;> rfl
  | cons n rest ih =>
    intro ev hev
    simp only [runLoop, List.mem_cons] at hev
    rcases hev with h | h | h | h
    · subst h; rfl
    · subst h; rfl
    · subst h; rfl
    · exact ih (i + 1) ev h

/-- An event that is not a loop event never occurs in the loop's trace. -/
theorem runLoop_count_nonloop (i : Nat) (oks : List Nat) (t : TermCause)
    (ev : Event) (h : isLoopEvent ev = false) :
    (runLoop i oks t).2.count ev = 0 := by
  rw [List.count_eq_zero]
  intro hmem
  have hl := runLoop_events_loop i oks t ev hmem
  rw [h] at hl
  cases hl

/-- The loop resets the idle timer once per read performed: once per fully
completed iteration and once for the terminating read, even when that read
returned an error. -/
theorem runLoop_reset_count (i : Nat) (oks : List Nat) (t : TermCause) :
    (runLoop i oks t).2.count Event.timerResetEv = oks.length + 1 := by
  induction oks generalizing i with
  | nil => cases t <;> simp [runLoop, List.count_cons]
  | cons n rest ih =>
    simp [runLoop, List.count_cons, ih (i + 1)]

/-- The loop's returned error is the terminating cause's error. -/
theorem runLoop_err (i : Nat) (oks : List Nat) (t : TermCause) :
    (runLoop i oks t).1 = t.err := by
  induction oks generalizing i with
  | nil => cases t <;> rfl
  | cons n rest ih => simpa [runLoop] using ih (i + 1)

/-- Loop events are never hook invocations. -/
theorem loop_event_not_hook (ev : Event) (h : isLoopEvent ev = true) :
    isHookEv ev = false := by
  cases ev <;> first | rfl | cases h

/-- Registering hooks appends them, in order, to the registry. -/
theorem registerAll_onClose (s : Session) (hs : List Nat) :
    (registerAll s hs).onClose = s.onClose ++ hs := by
  induction hs generalizing s with
  | nil => simp [registerAll]
  | cons h rest ih =>
    have step : registerAll s (h :: rest) = registerAll (s.AddOnClose h) rest := rfl
    rw [step, ih, Session.AddOnClose]
    simp

/-- The run trace decomposes into the armed timer, the loop events, the
stopped timer, the cancellation, the hooks in registration order, and the
optional transport close. -/
theorem run_trace_eq (s : Session) (inp : RunInput) (connCloseErr : Option GErr) :
    (s.Run inp connCloseErr).2.1 =
      Event.timerArmEv 300 :: (runLoop 0 inp.okReads inp.terminal).2
        ++ [Event.timerStopEv, Event.cancelEv s.cancel]
        ++ s.onClose.map Event.hookEv
        ++ (if s.closeSocket then [Event.connCloseEv] else []) := by
  by_cases h : s.closeSocket <;>
    simp [Session.Run, Session.Close, Session.close, Session.popOnClose, h]

/-- Run leaves the registry drained: the final session has no hooks. -/
theorem run_clears_onClose (s : Session) (inp : RunInput) (connCloseErr : Option GErr) :
    (s.Run inp connCloseErr).2.2.onClose = [] := by
  by_cases h : s.closeSocket <;>
    simp [Session.Run, Session.close, Session.popOnClose, h]

/-- C1: the deferred cleanup runs exactly once whatever terminated the loop,
in order: cancel the session context, invoke the registered hooks in
registration order, then close the transport iff closeSocket; the error Run
returns is the first non-nil among the loop's error, the cancellation step's
error and the hook-drain/transport-close step's error. -/
theorem run_cleanup_once_first_error (s : Session) (inp : RunInput)
    (connCloseErr : Option GErr) :
    (s.Run inp connCloseErr).2.1 =
      Event.timerArmEv 300 :: (runLoop 0 inp.okReads inp.terminal).2
        ++ [Event.timerStopEv, Event.cancelEv s.cancel]
        ++ s.onClose.map Event.hookEv
        ++ (if s.closeSocket then [Event.connCloseEv] else [])
    ∧ (∀ ev ∈ (runLoop 0 inp.okReads inp.terminal).2, isLoopEvent ev = true)
    ∧ (s.Run inp connCloseErr).2.1.count (Event.cancelEv s.cancel) = 1
    ∧ (s.Run inp connCloseErr).1 =
        firstNonNil (firstNonNil (some (runLoop 0 inp.okReads inp.terminal).1) s.Close.1)
          (s.close connCloseErr).1 := by
  refine ⟨run_trace_eq s inp connCloseErr, runLoop_events_loop 0 _ _, ?_, rfl⟩
  rw [run_trace_eq s inp connCloseErr]
  have hloop : (runLoop 0 inp.okReads inp.terminal).2.count (Event.cancelEv s.cancel) = 0 :=
    runLoop_count_nonloop 0 _ _ _ rfl
  have hhooks : (s.onClose.map Event.hookEv).count (Event.cancelEv s.cancel) = 0 := by
    rw [List.count_eq_zero]
    intro hmem
    rcases List.mem_map.mp hmem with ⟨a, _, ha⟩
    cases ha
  by_cases h : s.closeSocket <;>
    simp [h, List.count_cons, List.count_append, hloop, hhooks]

/-- Witness for C1 at a concrete run: the loop-purity conjunct applied to a
concrete loop event, and the single cancellation of the cleanup. -/
theorem run_cleanup_once_witness :
    Event.readEv 0 ∈ (runLoop 0 inpEx.okReads inpEx.terminal).2
    ∧ isLoopEvent (Event.readEv 0) = true
    ∧ (sEx.Run inpEx none).2.1.count (Event.cancelEv sEx.cancel) = 1 :=
  ⟨by decide,
    (run_cleanup_once_first_error sEx inpEx none).2.1 (Event.readEv 0) (by decide),
    (run_cleanup_once_first_error sEx inpEx none).2.2.1⟩

/-- C10: Close always returns nil, so the cancellation step never supplies
the surfaced error: Run's result is the loop's error, falling back (were the
loop error ever nil) to the transport close result when closeSocket is set;
concretely it always equals the terminating cause's error. -/
theorem close_nil_run_error (s : Session) (inp : RunInput)
    (connCloseErr : Option GErr) :
    s.Close.1 = none
    ∧ (s.Run inp connCloseErr).1 =
        firstNonNil (some (runLoop 0 inp.okReads inp.terminal).1)
          (if s.closeSocket then connCloseErr else none)
    ∧ (s.Run inp connCloseErr).1 = some inp.terminal.err := by
  refine ⟨rfl, ?_, ?_⟩
  · by_cases h : s.closeSocket <;>
      simp [Session.Run, Session.Close, Session.close, Session.popOnClose, h, firstNonNil]
  · simp [Session.Run, firstNonNil, runLoop_err]

/-- Registering hooks does not change the cancellation token. -/
theorem registerAll_cancel (s : Session) (hs : List Nat) :
    (registerAll s hs).cancel = s.cancel := by
  induction hs generalizing s with
  | nil => rfl
  | cons h rest ih =>
    have step : registerAll s (h :: rest) = registerAll (s.AddOnClose h) rest := rfl
    rw [step, ih]
    rfl

/-- Registering hooks does not change the closeSocket flag. -/
theorem registerAll_closeSocket (s : Session) (hs : List Nat) :
    (registerAll s hs).closeSocket = s.closeSocket := by
  induction hs generalizing s with
  | nil => rfl
  | cons h rest ih =>
    have step : registerAll s (h :: rest) = registerAll (s.AddOnClose h) rest := rfl
    rw [step, ih]
    rfl

/-- C2: after registering h1 ... hn and terminating, the trace's hook
segment is exactly h1 ... hn, so every hook fires exactly once and in
registration order; the hooks appear only after the loop has ended and the
context was cancelled, and the loop itself emits no hook invocation. -/
theorem hooks_fire_once_in_order (parent : GoCtx) (mms : Nat) (cs : Bool)
    (tok : Nat) (hs : List Nat) (inp : RunInput) (connCloseErr : Option GErr) :
    ((registerAll (NewSession parent mms cs tok) hs).Run inp connCloseErr).2.1 =
      Event.timerArmEv 300 :: (runLoop 0 inp.okReads inp.terminal).2
        ++ [Event.timerStopEv, Event.cancelEv tok]
        ++ hs.map Event.hookEv
        ++ (if cs then [Event.connCloseEv] else [])
    ∧ (∀ ev ∈ (runLoop 0 inp.okReads inp.terminal).2, isHookEv ev = false) := by
  constructor
  · have ht := run_trace_eq (registerAll (NewSession parent mms cs tok) hs) inp connCloseErr
    rw [registerAll_onClose, registerAll_cancel, registerAll_closeSocket] at ht
    simpa [NewSession] using ht
  · intro ev hev
    exact loop_event_not_hook ev (runLoop_events_loop 0 _ _ ev hev)

/-- Witness for C2 at a concrete registration sequence of two hooks. -/
theorem hooks_fire_witness :
    ((registerAll (NewSession ctx0 64 true 1) [4, 5]).Run inpEx none).2.1 =
      Event.timerArmEv 300 :: (runLoop 0 inpEx.okReads inpEx.terminal).2
        ++ [Event.timerStopEv, Event.cancelEv 1]
        ++ [4, 5].map Event.hookEv
        ++ (if true then [Event.connCloseEv] else [])
    ∧ Event.timerResetEv ∈ (runLoop 0 inpEx.okReads inpEx.terminal).2
    ∧ isHookEv Event.timerResetEv = false :=
  ⟨(hooks_fire_once_in_order ctx0 64 true 1 [4, 5] inpEx none).1,
    by decide,
    (hooks_fire_once_in_order ctx0 64 true 1 [4, 5] inpEx none).2
      Event.timerResetEv (by decide)⟩

/-- C3: the transport close event occurs exactly once per run when
closeSocket is set and never otherwise; when it occurs it is the final event
of the teardown, after the loop has terminated. -/
theorem conn_close_iff_closeSocket (s : Session) (inp : RunInput)
    (connCloseErr : Option GErr) :
    (s.Run inp connCloseErr).2.1.count Event.connCloseEv =
      (if s.closeSocket then 1 else 0)
    ∧ (s.closeSocket = true →
        (s.Run inp connCloseErr).2.1.getLast? = some Event.connCloseEv) := by
  have hloop : (runLoop 0 inp.okReads inp.terminal).2.count Event.connCloseEv = 0 :=
    runLoop_count_nonloop 0 _ _ _ rfl
  have hhooks : (s.onClose.map Event.hookEv).count Event.connCloseEv = 0 := by
    rw [List.count_eq_zero]
    intro hmem
    rcases List.mem_map.mp hmem with ⟨a, _, ha⟩
    cases ha
  constructor
  · rw [run_trace_eq]
    by_cases h : s.closeSocket <;>
      simp [h, List.count_cons, List.count_append, hloop, hhooks]
  · intro h
    rw [run_trace_eq, h]
    have hsplit :
        Event.timerArmEv 300 :: (runLoop 0 inp.okReads inp.terminal).2
            ++ [Event.timerStopEv, Event.cancelEv s.cancel]
            ++ s.onClose.map Event.hookEv
            ++ (if true then [Event.connCloseEv] else []) =
          (Event.timerArmEv 300 :: (runLoop 0 inp.okReads inp.terminal).2
            ++ [Event.timerStopEv, Event.cancelEv s.cancel]
            ++ s.onClose.map Event.hookEv) ++ [Event.connCloseEv] := by
      simp
    rw [hsplit, List.getLast?_append]
    rfl

/-- Witness for C3 at a concrete session with closeSocket set. -/
theorem conn_close_witness :
    sEx.closeSocket = true
    ∧ (sEx.Run inpEx none).2.1.getLast? = some Event.connCloseEv :=
  ⟨rfl, (conn_close_iff_closeSocket sEx inpEx none).2 rfl⟩

/-- C4 counterexample: a run whose single read fails still resets the idle
timer once although it contains zero successful reads, so the reset is not
tied to read success. -/
theorem timer_reset_without_successful_read :
    ((NewSession ctx0 64 true 1).Run
        ⟨[], TermCause.readError (GErr.errCode 3)⟩ none).2.1.count
      Event.timerResetEv = 1
    ∧ successfulReads ⟨[], TermCause.readError (GErr.errCode 3)⟩ = 0
    ∧ (1 : Nat) ≠ 0 := by
  refine ⟨by decide, rfl, by decide⟩

/-- The timer goroutine, once the timer channel fires, returns and calls
Close exactly once. -/
theorem timerGoroutine_fires (tok : Nat) :
    ∀ sigs : List WaitChan, WaitChan.timerC ∈ sigs →
      (timerGoroutine tok sigs).1 = true
      ∧ (timerGoroutine tok sigs).2.count (Event.cancelEv tok) = 1 := by
  intro sigs
  induction sigs with
  | nil => intro h; cases h
  | cons c rest ih =>
    intro h
    cases c with
    | timerC =>
      refine ⟨rfl, ?_⟩
      simp [timerGoroutine, List.count_cons]
    | ctxDone =>
      have hrest : WaitChan.timerC ∈ rest := by
        rcases List.mem_cons.mp h with h1 | h1
        · cases h1
        · exact h1
      exact ih hrest

/-- The timer goroutine never returns on a signal sequence in which the
timer channel does not fire. -/
theorem timerGoroutine_no_fire (tok : Nat) :
    ∀ sigs : List WaitChan, WaitChan.timerC ∉ sigs →
      (timerGoroutine tok sigs).1 = false := by
  intro sigs
  induction sigs with
  | nil => intro _; rfl
  | cons c rest ih =>
    intro hnf
    cases c with
    | timerC => exact absurd (by simp) hnf
    | ctxDone => exact ih (fun hm => hnf (by simp [hm]))

/-- C4 amended: the timer is armed with the fixed 300 second window when the
loop starts; it is reset once per read performed — including the terminating
read even when that read returned an error, okReads.length + 1 resets in
total; and when the timer fires the supervising goroutine triggers Close
exactly once and returns. -/
theorem timer_behavior (s : Session) (inp : RunInput) (connCloseErr : Option GErr)
    (sigs : List WaitChan) (hfire : WaitChan.timerC ∈ sigs) :
    (s.Run inp connCloseErr).2.1.head? = some (Event.timerArmEv 300)
    ∧ (s.Run inp connCloseErr).2.1.count Event.timerResetEv =
        inp.okReads.length + 1
    ∧ (timerGoroutine s.cancel sigs).1 = true
    ∧ (timerGoroutine s.cancel sigs).2.count (Event.cancelEv s.cancel) = 1 := by
  refine ⟨?_, ?_, (timerGoroutine_fires s.cancel sigs hfire).1,
    (timerGoroutine_fires s.cancel sigs hfire).2⟩
  · rw [run_trace_eq]
    rfl
  · rw [run_trace_eq]
    have hloop := runLoop_reset_count 0 inp.okReads inp.terminal
    have hhooks : (s.onClose.map Event.hookEv).count Event.timerResetEv = 0 := by
      rw [List.count_eq_zero]
      intro hmem
      rcases List.mem_map.mp hmem with ⟨a, _, ha⟩
      cases ha
    by_cases h : s.closeSocket <;>
      simp [h, List.count_cons, List.count_append, hloop, hhooks]

/-- Witness for C4 amended: the timer fires in the signal sequence. -/
theorem timer_behavior_witness :
    WaitChan.timerC ∈ [WaitChan.timerC]
    ∧ (sEx.Run inpEx none).2.1.head? = some (Event.timerArmEv 300)
    ∧ (timerGoroutine sEx.cancel [WaitChan.timerC]).1 = true :=
  ⟨by decide, (timer_behavior sEx inpEx none [WaitChan.timerC] (by decide)).1,
    (timer_behavior sEx inpEx none [WaitChan.timerC] (by decide)).2.2.1⟩

/-- C5: the timer goroutine's select waits only on the timer channel — the
session's Done channel is not among its cases — so on any execution in which
the session closes without the timer firing (explicit Close, read error or
processing error), the goroutine never returns: the background waiter leaks,
contradicting the claim. -/
theorem timer_goroutine_leaks (tok : Nat) (sigs : List WaitChan)
    (hnf : WaitChan.timerC ∉ sigs) :
    (timerGoroutine tok sigs).1 = false
    ∧ WaitChan.ctxDone ∉ timerSelectCases :=
  ⟨timerGoroutine_no_fire tok sigs hnf, by decide⟩

/-- Witness for C5: the session closes (ctxDone fires) and the timer never
does; the goroutine is still blocked. -/
theorem timer_goroutine_leaks_witness :
    WaitChan.timerC ∉ [WaitChan.ctxDone]
    ∧ (timerGoroutine 1 [WaitChan.ctxDone]).1 = false :=
  ⟨by decide, (timer_goroutine_leaks 1 [WaitChan.ctxDone] (by decide)).1⟩

/-- The loop's trace contains no hook invocation at all. -/
theorem runLoop_filter_hook (i : Nat) (oks : List Nat) (t : TermCause) :
    (runLoop i oks t).2.filter isHookEv = [] := by
  rw [List.filter_eq_nil_iff]
  intro a ha
  have hl := loop_event_not_hook a (runLoop_events_loop i oks t a ha)
  simp [hl]

/-- Filtering hook events out of a pure hook segment keeps it whole. -/
theorem filter_hook_map (hs : List Nat) :
    (hs.map Event.hookEv).filter isHookEv = hs.map Event.hookEv := by
  induction hs with
  | nil => rfl
  | cons a rest ih => simp [List.filter_cons, isHookEv, ih]

/-- C6 counterexample: after Run has drained the hooks, AddOnClose(7) only
appends 7 to the registry and no event for hook 7 is ever emitted — the late
hook is silently dropped, never executed. -/
theorem late_hook_dropped :
    Event.hookEv 7 ∉ (execCalls (NewSession ctx0 64 true 1)
        [ApiCall.runCall ⟨[], TermCause.readError (GErr.errCode 3)⟩ none,
         ApiCall.addHook 7]).2
    ∧ (execCalls (NewSession ctx0 64 true 1)
        [ApiCall.runCall ⟨[], TermCause.readError (GErr.errCode 3)⟩ none,
         ApiCall.addHook 7]).1.onClose = [7] := by
  decide

/-- C6 amended: hooks registered before the drain all execute exactly once,
in order — the trace's hook events are exactly the registered list — while a
hook added after the drain is only appended to the (never again consumed)
registry: its append emits no event and the hook is never invoked. -/
theorem late_hook_semantics (parent : GoCtx) (mms : Nat) (cs : Bool) (tok : Nat)
    (pre : List Nat) (h : Nat) (inp : RunInput) (connCloseErr : Option GErr) :
    (((registerAll (NewSession parent mms cs tok) pre).Run inp connCloseErr).2.1).filter
        isHookEv = pre.map Event.hookEv
    ∧ (execCall ((registerAll (NewSession parent mms cs tok) pre).Run inp connCloseErr).2.2
        (ApiCall.addHook h)).2 = []
    ∧ (execCall ((registerAll (NewSession parent mms cs tok) pre).Run inp connCloseErr).2.2
        (ApiCall.addHook h)).1.onClose = [h] := by
  refine ⟨?_, rfl, ?_⟩
  · rw [run_trace_eq, registerAll_onClose]
    have hns : (NewSession parent mms cs tok).onClose = [] := rfl
    rw [hns]
    by_cases hcs : (registerAll (NewSession parent mms cs tok) pre).closeSocket <;>
      simp [hcs, List.filter_append, List.filter_cons, isHookEv,
        runLoop_filter_hook, filter_hook_map]
  · simp [execCall, Session.AddOnClose, run_clears_onClose]

/-- C7: WriteMessage returns the wrapped marshal error, with no transport
write at all, exactly when Marshal fails; when Marshal succeeds it performs
exactly one write, bounded by the message's own context, never retrying, and
surfaces the transport's result. -/
theorem writeMessage_spec (s : Session) (wr : Option GErr) (req : PMessage) :
    (∀ e, req.Marshal = Except.error e →
        s.WriteMessage wr req = (some (GErr.wrapMarshal e), []))
    ∧ (∀ d, req.Marshal = Except.ok d →
        s.WriteMessage wr req = (wr, [Event.writeEv req.Context d]))
    ∧ (s.WriteMessage wr req).2.length ≤ 1 := by
  rcases req with ⟨m, c⟩
  cases m with
  | error e =>
    refine ⟨?_, ?_, ?_⟩
    · intro e1 he
      injection he with h2
      subst h2
      rfl
    · intro d hd
      simp at hd
    · simp [Session.WriteMessage]
  | ok d =>
    refine ⟨?_, ?_, ?_⟩
    · intro e1 he
      simp at he
    · intro d1 hd
      injection hd with h2
      subst h2
      rfl
    · simp [Session.WriteMessage]

/-- Witness for C7 at concrete messages: a failing Marshal yields the
wrapped error and an empty trace; a succeeding one yields the transport
result and one write under the message's context. -/
theorem writeMessage_witness :
    msgFail.Marshal = Except.error (GErr.errCode 5)
    ∧ sEx.WriteMessage none msgFail = (some (GErr.wrapMarshal (GErr.errCode 5)), [])
    ∧ msgOk.Marshal = Except.ok [1, 2]
    ∧ sEx.WriteMessage none msgOk = (none, [Event.writeEv ctx0 [1, 2]]) :=
  ⟨rfl, (writeMessage_spec sEx none msgFail).1 _ rfl, rfl,
    (writeMessage_spec sEx none msgOk).2.1 _ rfl⟩

/-- C8 counterexample: with the parent context already cancelled (token 0),
the session's Done is signaled although the session's own token 1 was never
cancelled — no Close was called and Run never returned. -/
theorem done_without_close_or_run :
    Session.Done [0] (NewSession ⟨[0], []⟩ 64 true 1) = true
    ∧ (NewSession ⟨[0], []⟩ 64 true 1).cancel ∉ ([0] : List Nat) := by
  decide

/-- C8 amended: Done is signaled iff the session's own cancel token was
cancelled (Close does exactly that, and every Run teardown emits that
cancellation) or the parent context passed to NewSession is itself done. -/
theorem done_iff (parent : GoCtx) (mms : Nat) (cs : Bool) (tok : Nat)
    (cancelled : List Nat) (inp : RunInput) (connCloseErr : Option GErr) :
    Session.Done cancelled (NewSession parent mms cs tok)
      = (cancelled.contains tok || GoCtx.done cancelled parent)
    ∧ (NewSession parent mms cs tok).Close.2 = [Event.cancelEv tok]
    ∧ Event.cancelEv tok ∈ ((NewSession parent mms cs tok).Run inp connCloseErr).2.1 := by
  refine ⟨rfl, rfl, ?_⟩
  rw [run_trace_eq]
  simp [NewSession]

/-- Looking up a key right after adding it yields the added value. -/
theorem lookup_withValue_self (c : GoCtx) (k v : Nat) :
    (c.withValue k v).lookup k = some v := by
  simp [GoCtx.withValue, GoCtx.lookup, List.find?]

/-- Adding a different key leaves the lookup of k unchanged. -/
theorem lookup_withValue_ne (c : GoCtx) (k k1 v1 : Nat) (h : k1 ≠ k) :
    (c.withValue k1 v1).lookup k = c.lookup k := by
  unfold GoCtx.withValue GoCtx.lookup
  rw [List.find?_cons_of_neg]
  simp [h]

/-- Later SetContextValue calls on other keys preserve an existing binding. -/
theorem foldl_setContextValue_lookup (k v : Nat) :
    ∀ (ws : List (Nat × Nat)) (s : Session), (∀ p ∈ ws, p.1 ≠ k) →
      s.ctx.lookup k = some v →
      (ws.foldl (fun t p => t.SetContextValue p.1 p.2) s).ctx.lookup k = some v := by
  intro ws
  induction ws with
  | nil =>
    intro s _ h0
    simpa using h0
  | cons p rest ih =>
    intro s hne h0
    have hp : p.1 ≠ k := hne p (List.mem_cons_self p rest)
    have h1 : (s.SetContextValue p.1 p.2).ctx.lookup k = some v := by
      show (s.ctx.withValue p.1 p.2).lookup k = some v
      rw [lookup_withValue_ne s.ctx k p.1 p.2 hp]
      exact h0
    have hrest : ∀ q ∈ rest, q.1 ≠ k := fun q hq => hne q (List.mem_cons_of_mem p hq)
    rw [List.foldl_cons]
    exact ih (s.SetContextValue p.1 p.2) hrest h1

/-- SetContextValue never touches the cancellation chain. -/
theorem foldl_setContextValue_tokens :
    ∀ (ws : List (Nat × Nat)) (s : Session),
      (ws.foldl (fun t p => t.SetContextValue p.1 p.2) s).ctx.tokens = s.ctx.tokens := by
  intro ws
  induction ws with
  | nil => intro s; rfl
  | cons p rest ih =>
    intro s
    rw [List.foldl_cons, ih]
    rfl

/-- C9: after SetContextValue(k, v), every later snapshot — taken after any
further SetContextValue calls on other keys — still yields v for k, and the
snapshot's cancellation chain equals the original one, so cancellation from
the original trigger still propagates through the wrapped contexts. -/
theorem setContextValue_spec (s : Session) (k v : Nat) (ws : List (Nat × Nat))
    (hks : ∀ p ∈ ws, p.1 ≠ k) :
    (ws.foldl (fun t p => t.SetContextValue p.1 p.2) (s.SetContextValue k v)).ctx.lookup k
      = some v
    ∧ (ws.foldl (fun t p => t.SetContextValue p.1 p.2) (s.SetContextValue k v)).ctx.tokens
      = s.ctx.tokens
    ∧ ∀ cancelled,
        GoCtx.done cancelled
          (ws.foldl (fun t p => t.SetContextValue p.1 p.2) (s.SetContextValue k v)).ctx
        = GoCtx.done cancelled s.ctx := by
  have h0 : (s.SetContextValue k v).ctx.lookup k = some v := lookup_withValue_self s.ctx k v
  refine ⟨foldl_setContextValue_lookup k v ws _ hks h0, ?_, ?_⟩
  · rw [foldl_setContextValue_tokens]
    rfl
  · intro cancelled
    unfold GoCtx.done
    rw [foldl_setContextValue_tokens]
    rfl

/-- Witness for C9: set key 1 to 2, then set key 3; key 1 still reads 2. -/
theorem setContextValue_witness :
    (∀ p ∈ [((3 : Nat), (4 : Nat))], p.1 ≠ 1)
    ∧ ([((3 : Nat), (4 : Nat))].foldl (fun t p => t.SetContextValue p.1 p.2)
        (sEx.SetContextValue 1 2)).ctx.lookup 1 = some 2 :=
  ⟨by decide, (setContextValue_spec sEx 1 2 [(3, 4)] (by decide)).1⟩
